import Mathlib

/-!
# Verification of `open_csv` (CodeWikiOrg/open_csv)

Shallow embedding of `src/open_csv.c` / `src/open_csv.h`.

Modelling conventions:

* A file is a `List String` of its lines, without the terminating `'\n'`;
  `fgets` stores each line *with* its `'\n'` into the 1024-byte buffer, so the
  buffer seen by `strtok`/`atof` is the line with `'\n'` appended (`lineBuf`).
  We assume every line (including the last) is newline-terminated and shorter
  than the 1024-byte buffer; theorems that quantify over files carry the
  length bound as a hypothesis where it matters.
* `CSV_DELIM` is `", "`.  C's `strtok` treats its delimiter argument as a
  *set* of characters: it skips runs of delimiter characters and returns the
  maximal runs of non-delimiter characters, never returning empty tokens.
  `strtokAux` models one tokenization pass over a buffer (the chain
  `strtok(buf, d); strtok(NULL, d); ...`).
* Numeric cells: `atof` is modelled over the exact rationals `ℚ` (decimal
  literals are exact rationals; the claims under study only involve values
  where the `float` rounding is the identity).  The model covers the decimal
  forms of `strtod` (sign, digits, fraction, exponent); the C99 hex/inf/nan
  forms are outside the input domain described by the spec and are not
  modelled.
* Memory: `createDataFrame` allocates `params` (header storage) and `loadCsv`
  allocates the `rows × cols` cell matrix.  The loader's stores into
  `dataFrame[row][col]` are recorded as an explicit write trace
  (`dataWrites`), so that out-of-bounds column indices remain observable;
  `cellsOf` replays the in-bounds writes into the allocated matrix.
* Uninitialized memory: buffers are `List (Option Char)` with `none` for an
  uninitialized byte.  `trimToken`'s returned buffer (`trimTokenBuf`) has no
  terminator after its copied content, so the C string later read from it is
  the content followed by arbitrary NUL-free heap garbage (`canReadCString`
  decides whether a given string is a possible read).  Consequently the final
  contents of `params` — built by `strncat`ing those reads — are not a
  function of the file content; they are modelled by `paramsAfter`,
  parametrized by the heap garbage (`validHeap` delimits the possible
  choices), while the table itself carries only the determinate state: the
  dimensions, the allocation state of `params`, the label buffers, and the
  cell-write trace.
* File opening: `getDFsize` and `loadCsv` both ignore their `FILE *` argument
  and reopen `CSV_PATH` themselves; a failed `fopen` is modelled by `none`.
  `getDFsize` returns `NULL` (`none`) in that case; `createDataFrame` does not
  check it and evaluates `dfSize[0]`, a NULL dereference, modelled by the
  crash marker `CCrash.nullDerefSize`.
-/

namespace OpenCsv

/-- C `isalnum` in the C locale, over ASCII: decimal digits and letters. -/
def isalnum (c : Char) : Bool :=
  (48 ≤ c.toNat && c.toNat ≤ 57) ||
  (65 ≤ c.toNat && c.toNat ≤ 90) ||
  (97 ≤ c.toNat && c.toNat ≤ 122)

/-- The characters of `CSV_DELIM` (`", "`), which `strtok` treats as a set. -/
def isDelimC (c : Char) : Bool := c == ',' || c == ' '

/-- One `strtok` tokenization chain over a buffer with delimiter set
`isDelimC`: maximal runs of non-delimiter characters, in order.  `acc` is the
(reversed) portion of the current token read so far. -/
def strtokAux : List Char → List Char → List (List Char)
  | [], acc => if acc.isEmpty then [] else [acc.reverse]
  | c :: cs, acc =>
    if isDelimC c then
      if acc.isEmpty then strtokAux cs [] else acc.reverse :: strtokAux cs []
    else
      strtokAux cs (c :: acc)

/-- The tokens `strtok(buf, ", ")`, `strtok(NULL, ", ")`, … produce from a
buffer. -/
def strtokTokensL (buf : List Char) : List (List Char) := strtokAux buf []

/-- The buffer `fgets` fills for one source line: the line plus its `'\n'`. -/
def lineBuf (l : String) : List Char := l.toList ++ ['\n']

/-- The `strtok` tokens of one source line, as strings. -/
def lineTokens (l : String) : List String :=
  (strtokTokensL (lineBuf l)).map fun cs => ⟨cs⟩

/-- `getDFsize` (src/open_csv.c:89-136): skips the first line, takes the
`strtok` token count of the second line as the column count, and counts every
line after the first as a row.  Returns `(rows, cols)` (`retVal[0]`,
`retVal[1]`). -/
def getDFsize (lines : List String) : Nat × Nat :=
  match lines with
  | [] => (0, 0)
  | _hdr :: rest =>
    (rest.length,
      match rest with
      | [] => 0
      | l :: _ => (lineTokens l).length)

/-- The character content `trimToken` copies into its output buffer: the
alphanumeric characters of the input, in order (the C loop over `token`). -/
def trimTokenChars : List Char → List Char
  | [] => []
  | c :: cs => if isalnum c then c :: trimTokenChars cs else trimTokenChars cs

/-- The character content `trimToken` (src/open_csv.c:212-234) *writes*, as a
string — the intended sanitization map.  This is NOT the C string a caller
reads back: the returned buffer is `trimTokenBuf`, which has no terminator
after this content, so a caller's read is this content followed by
indeterminate heap garbage (see `canReadCString`). -/
def trimToken (s : String) : String := ⟨trimTokenChars s.toList⟩

/-- The copying loop of `trimToken`: walks the token, writing each
alphanumeric character at index `innerLoop` of the output buffer. -/
def trimLoop : List Char → Nat → List (Option Char) → List (Option Char)
  | [], _, buf => buf
  | c :: cs, inner, buf =>
    if isalnum c then trimLoop cs (inner + 1) (buf.set inner (some c))
    else trimLoop cs inner buf

/-- Byte-level model of `trimToken`: `malloc(strlen(token) + 1)` yields
`token.length + 1` uninitialized bytes (`none`); the code writes `'\0'` at
index 0, then copies the alphanumeric characters at indices 0, 1, ….  No
terminator is written after the loop. -/
def trimTokenBuf (token : List Char) : List (Option Char) :=
  trimLoop token 0
    ((List.replicate (token.length + 1) (none : Option Char)).set 0 (some (Char.ofNat 0)))

/-- A buffer of possibly-uninitialized bytes is a readable C string iff some
initialized NUL byte occurs and every byte before it is initialized. -/
def isCString (buf : List (Option Char)) : Bool :=
  (List.range buf.length).any fun i =>
    buf.getD i none == some (Char.ofNat 0) &&
    ((List.range i).all fun j => (buf.getD j none).isSome)

/-- Whether byte `i` of a buffer can hold `c`: an initialized byte must equal
`c`; an uninitialized byte, or a byte past the allocation (adjacent heap),
can hold anything. -/
def byteCanBe (buf : List (Option Char)) (i : Nat) (c : Char) : Bool :=
  match buf[i]? with
  | none => true
  | some none => true
  | some (some b) => b == c

/-- Whether `s` is a possible `strlen`-delimited C-string read of a buffer of
possibly-uninitialized bytes: every byte of `s` is non-NUL and consistent
with the buffer, and the terminating NUL falls on a byte that can be NUL
(an initialized NUL, an uninitialized byte, or heap past the allocation). -/
def canReadCString (buf : List (Option Char)) (s : List Char) : Bool :=
  ((List.range s.length).all fun i =>
    !(s.getD i (Char.ofNat 0) == Char.ofNat 0) &&
    byteCanBe buf i (s.getD i (Char.ofNat 0))) &&
  byteCanBe buf s.length (Char.ofNat 0)

/-- C `isspace` in the C locale. -/
def isspace (c : Char) : Bool :=
  c == ' ' || c == '\t' || c == '\n' || c == Char.ofNat 11 || c == Char.ofNat 12 || c == '\r'

def isDigitC (c : Char) : Bool := 48 ≤ c.toNat && c.toNat ≤ 57

def digitVal (c : Char) : Nat := c.toNat - 48

/-- Read a maximal run of decimal digits: value, digit count, rest. -/
def parseDigits : List Char → Nat → Nat → Nat × Nat × List Char
  | [], acc, cnt => (acc, cnt, [])
  | c :: cs, acc, cnt =>
    if isDigitC c then parseDigits cs (acc * 10 + digitVal c) (cnt + 1)
    else (acc, cnt, c :: cs)

/-- Read an optional sign. -/
def parseSign : List Char → Int × List Char
  | '+' :: cs => (1, cs)
  | '-' :: cs => (-1, cs)
  | cs => (1, cs)

/-- The rational `sgn · (ip + fp / 10^fcnt) · 10^ex` of a parsed decimal,
assembled with one `mkRat`. -/
def decValue (sgn : Int) (ip fp fcnt : Nat) (ex : Int) : ℚ :=
  let mant : Int := sgn * Int.ofNat (ip * 10 ^ fcnt + fp)
  match ex - (fcnt : Int) with
  | .ofNat n => mkRat (mant * Int.ofNat (10 ^ n)) 1
  | .negSucc n => mkRat mant (10 ^ (n + 1))

/-- C `strtod` on the decimal forms: skip whitespace, optional sign, digits,
optional `.` and fraction digits, optional exponent.  Returns the value and
the unconsumed rest, or `none` when no conversion can be performed. -/
def strtod (l : List Char) : Option (ℚ × List Char) :=
  let l1 := l.dropWhile isspace
  let (sgn, l2) := parseSign l1
  let (ip, icnt, l3) := parseDigits l2 0 0
  let (fp, fcnt, l4) :=
    match l3 with
    | '.' :: cs => parseDigits cs 0 0
    | _ => (0, 0, l3)
  if icnt + fcnt = 0 then none
  else
    let (ex, l5) :=
      match l4 with
      | 'e' :: cs | 'E' :: cs =>
        let (es, cs2) := parseSign cs
        let (ev, ecnt, cs3) := parseDigits cs2 0 0
        if ecnt = 0 then ((0 : Int), l4) else (es * ev, cs3)
      | _ => ((0 : Int), l4)
    some (decValue sgn ip fp fcnt ex, l5)

/-- C `atof`: `strtod` with the rest discarded, `0.0` when no conversion is
performed. -/
def atof (s : String) : ℚ :=
  match strtod s.toList with
  | none => 0
  | some (v, _) => v

/-- Whether a whole string is a valid floating-point literal (the spec's
notion in the parse-failure claim): `strtod` succeeds and consumes the entire
string. -/
def isFloatLiteral (s : String) : Bool :=
  match strtod s.toList with
  | some (_, []) => true
  | _ => false

/-- `csvData_t` (src/open_csv.h:31-38), carrying the *determinate* state of
the loaded frame: `paramsBuf` is the header storage as allocated (`cols`
uninitialized bytes, then the one byte the code initializes,
`params[cols] = '\0'`); `headerLabelBufs` records the buffers `trimToken`
returns for the header tokens, in order (the header loop `strncat`s their
C-string *reads* into `params`; those reads, and hence the final `params`
bytes, depend on heap garbage and are modelled separately by `paramsAfter`);
`dataWrites` is the trace of stores `dataFrame[row][col] = v` performed by
the data loop, in program order. -/
structure csvData where
  delim : String
  rows : Nat
  cols : Nat
  paramsBuf : List (Option Char)
  headerLabelBufs : List (List (Option Char))
  dataWrites : List (Nat × Nat × ℚ)
deriving DecidableEq

/-- `createDataFrame` (src/open_csv.c:168-182): sizes the frame from
`getDFsize`, records the delimiter, and allocates `cols + 1` bytes of header
storage of which only the last is initialized (`params[cols] = '\0'`).
The `delim` field: the source `strncpy`s `", "` with `n = sizeof(char *)`,
writing 8 bytes into the 2-byte allocation — an overflow; the delimiter
string value written (and later read by `strtok`) is `", "`, which is what
the model records. -/
def createDataFrame (lines : List String) : csvData :=
  let sz := getDFsize lines
  { delim := ", ", rows := sz.1, cols := sz.2,
    paramsBuf := List.replicate sz.2 (none : Option Char) ++ [some (Char.ofNat 0)],
    headerLabelBufs := [], dataWrites := [] }

/-- The stores performed for one data line: the `col`-th token is parsed with
`atof` and stored at `dataFrame[row][col]`, for `col = 0, 1, …` with no bound
check against `cols`. -/
def rowWrites (row : Nat) (l : String) : List (Nat × Nat × ℚ) :=
  ((lineTokens l).enum).map fun p => (row, p.1, atof p.2)

/-- The full store trace of the data-extraction loop, rows in order. -/
def dataWritesOf (dataLines : List String) : List (Nat × Nat × ℚ) :=
  (dataLines.enum).flatMap fun p => rowWrites p.1 p.2

/-- `loadCsv` (src/open_csv.c:274-332) on an openable file: build the frame,
tokenize line 1 and pass each token through `trimToken` (the resulting
*buffers* are recorded in `headerLabelBufs`), then run the data-extraction
loop over the remaining lines.  The header loop's
`strncat(df->params, label, strlen(label))` reads each unterminated label
buffer and starts after the `strlen` of the uninitialized `params` prefix,
so the final `params` bytes are not a function of the file content; their
possible values are modelled by `paramsAfter`.  (On an empty file the C code
reads an uninitialized buffer after the failed `fgets` — unspecified; the
model returns the empty frame, and no claim touches this case.) -/
def loadCsv (lines : List String) : csvData :=
  let df := createDataFrame lines
  match lines with
  | [] => df
  | hdr :: dataLines =>
    { df with
      headerLabelBufs := (lineTokens hdr).map fun t => trimTokenBuf t.toList,
      dataWrites := dataWritesOf dataLines }

/-- The last store to cell `(r, c)` in a write trace, if any (later stores to
the same address win). -/
def lastWriteVal (ws : List (Nat × Nat × ℚ)) (r c : Nat) : Option ℚ :=
  ((ws.filter fun w => w.1 == r && w.2.1 == c).getLast?).map fun w => w.2.2

/-- The allocated `rows × cols` cell matrix after replaying the in-bounds
writes; a cell never stored to is `none` (uninitialized memory). -/
def cellsOf (d : csvData) : List (List (Option ℚ)) :=
  (List.range d.rows).map fun r =>
    (List.range d.cols).map fun c => lastWriteVal d.dataWrites r c

/-- Crash marker: `createDataFrame` evaluates `dfSize[0]` without checking
`getDFsize`'s return for `NULL` — a NULL dereference (undefined behavior). -/
inductive CCrash where
  | nullDerefSize
deriving DecidableEq

/-- `getDFsize` with the `fopen` outcome made explicit: on open failure it
prints a message and returns `NULL` (`none`). -/
def getDFsizeOpen : Option (List String) → Option (Nat × Nat)
  | none => none
  | some lines => some (getDFsize lines)

/-- `createDataFrame` with the `fopen` outcome explicit: it uses
`getDFsize`'s result without a `NULL` check (`dataFrame->rows = dfSize[0]`). -/
def createDataFrameOpen (file : Option (List String)) : Except CCrash csvData :=
  match getDFsizeOpen file with
  | none => .error .nullDerefSize
  | some sz =>
    .ok { delim := ", ", rows := sz.1, cols := sz.2,
          paramsBuf := List.replicate sz.2 (none : Option Char) ++ [some (Char.ofNat 0)],
          headerLabelBufs := [], dataWrites := [] }

/-- `loadCsv` with the `fopen` outcome explicit.  The `FILE *` parameter is
overwritten by `filePtr = fopen(CSV_PATH, CSV_MODE)` before any use; a failed
open is only greeted by the absence of a status message, and execution
continues into `createDataFrame`. -/
def loadCsvOpen (_filePtrArg : Option (List String))
    (fileAtPath : Option (List String)) : Except CCrash csvData :=
  let filePtr := fileAtPath
  match createDataFrameOpen filePtr, filePtr with
  | .error e, _ => .error e
  | .ok _, none => .error .nullDerefSize
  | .ok _, some lines => .ok (loadCsv lines)

/-- The whole-program view for the purity claim: the global `FILE *csvPtr`
(src/open_csv.c:26) is declared and never read or written by any function, so
it is threaded through unchanged; the result depends only on the content at
`CSV_PATH`. -/
def loadCsvFull (filePtrArg : Option (List String))
    (csvPtr : Option (List String)) (fileAtPath : Option (List String)) :
    Except CCrash csvData × Option (List String) :=
  (loadCsvOpen filePtrArg fileAtPath, csvPtr)

/-- Remove one leading occurrence of the sequence `d`, if present. -/
def stripSeq : List Char → List Char → Option (List Char)
  | [], l => some l
  | _ :: _, [] => none
  | d :: ds, c :: cs => if c == d then stripSeq ds cs else none

/-- Modelled from the spec: auxiliary loop for `splitSeq`, with fuel
(`l.length` suffices for a nonempty delimiter). -/
def splitSeqGo (d : List Char) : Nat → List Char → List Char → List (List Char)
  | 0, l, acc => [acc.reverse ++ l]
  | fuel + 1, l, acc =>
    match l with
    | [] => [acc.reverse]
    | c :: cs =>
      match stripSeq d (c :: cs) with
      | some rest => acc.reverse :: splitSeqGo d fuel rest []
      | none => splitSeqGo d fuel cs (c :: acc)

/-- Modelled from the spec: splitting a buffer at exact occurrences of the
delimiter as a literal *substring* ("exact-substring matching, not a set or
class of characters") — the tokenization the spec claims, for comparison
with the code's `strtok` behavior. -/
def splitSeq (d : List Char) (l : List Char) : List (List Char) :=
  splitSeqGo d l.length l []

/-- The C string read from a label buffer `trimTokenBuf t`: if the copied
content is empty, the buffer's first byte is its initial NUL and the read is
determinately empty; otherwise the content overwrote the NUL and the read is
the content followed by whatever NUL-free garbage `g` the heap holds before
the next zero byte. -/
def labelRead (content g : List Char) : List Char :=
  if content.isEmpty then [] else content ++ g

/-- One possible final string content of the header storage `params` after
the header loop of `loadCsv`, determined by the heap garbage: `preGarbage`
is what the first `strncat`'s `strlen(params)` skips over in the
uninitialized `params` prefix (at most `cols` NUL-free bytes, since
`params[cols]` is `'\0'`), and `labelGarbage` holds, per header token, the
NUL-free bytes read past that label's copied content.  Each `strncat`
appends the full C-string read of its label and reterminates, so the final
string is the skipped prefix followed by the concatenated label reads. -/
def paramsAfter (preGarbage : List Char) (labelGarbage : List (List Char))
    (lines : List String) : List Char :=
  match lines with
  | [] => []
  | hdr :: _ =>
    preGarbage ++ ((lineTokens hdr).enum).flatMap
      (fun p => labelRead (trimTokenChars p.2.toList) (labelGarbage.getD p.1 []))

/-- NUL-free garbage bytes. -/
def nulFree (g : List Char) : Bool := g.all fun c => !(c == Char.ofNat 0)

/-- Whether a garbage choice for `paramsAfter` is a possible heap state:
the skipped prefix fits before the initialized `params[cols] = '\0'` and no
garbage byte is a NUL (a NUL would have ended the corresponding read). -/
def validHeap (cols : Nat) (preGarbage : List Char)
    (labelGarbage : List (List Char)) : Bool :=
  decide (preGarbage.length ≤ cols) && nulFree preGarbage &&
    labelGarbage.all nulFree

/-- A character a well-formed token may contain: not a delimiter character
and not a newline. -/
def goodChar (c : Char) : Bool := !isDelimC c && !(c == '\n')

/-- A well-formed token: nonempty, made of `goodChar`s. -/
def goodToken (t : String) : Bool := !t.toList.isEmpty && t.toList.all goodChar

/-- A well-formed data row: a nonempty list of well-formed tokens. -/
def goodRow (row : List String) : Bool := !row.isEmpty && row.all goodToken

/-- The source line a row of tokens is written as: the tokens joined by the
delimiter `", "`. -/
def joinRow : List String → String
  | [] => ""
  | [t] => t
  | t :: u :: rest => t ++ ", " ++ joinRow (u :: rest)

/-! ## Tokenizer lemmas -/

theorem strtokAux_nil (acc : List Char) :
    strtokAux [] acc = if acc.isEmpty then [] else [acc.reverse] := rfl

theorem strtokAux_cons (c : Char) (cs acc : List Char) :
    strtokAux (c :: cs) acc =
      if isDelimC c then
        (if acc.isEmpty then strtokAux cs [] else acc.reverse :: strtokAux cs [])
      else strtokAux cs (c :: acc) := rfl

theorem strtokAux_nondelim_run (t : List Char) (h : ∀ c ∈ t, isDelimC c = false) :
    ∀ rest acc, strtokAux (t ++ rest) acc = strtokAux rest (t.reverse ++ acc) := by
  induction t with
  | nil => intro rest acc; simp
  | cons c cs ih =>
    intro rest acc
    have hc : isDelimC c = false := h c (by simp)
    rw [List.cons_append, strtokAux_cons, if_neg (by simp [hc])]
    rw [ih (fun d hd => h d (by simp [hd])) rest (c :: acc)]
    simp

theorem strtokAux_delim_cons (c : Char) (hc : isDelimC c = true) (cs acc : List Char) :
    strtokAux (c :: cs) acc =
      if acc.isEmpty then strtokAux cs [] else acc.reverse :: strtokAux cs [] := by
  simp [strtokAux, hc]

theorem goodToken_chars {t : String} (h : goodToken t = true) :
    ∀ c ∈ t.toList, isDelimC c = false := by
  intro c hc
  have h2 := ((Bool.and_eq_true _ _).mp h).2
  have h3 := (List.all_eq_true.mp h2) c hc
  exact Bool.eq_false_iff.mpr fun hd => by simp [goodChar, hd] at h3

theorem goodToken_ne_nil {t : String} (h : goodToken t = true) : t.toList ≠ [] := by
  have h1 := ((Bool.and_eq_true _ _).mp h).1
  simpa using h1

theorem newline_not_delim : isDelimC '\n' = false := by decide

/-- The `strtok` token count of a well-formed source line (as stored in the
`fgets` buffer, newline included) is the number of the row's tokens. -/
theorem strtokTokensL_joinRow_length :
    ∀ row : List String, goodRow row = true →
    (strtokTokensL ((joinRow row).toList ++ ['\n'])).length = row.length := by
  intro row
  induction row with
  | nil => intro h; simp [goodRow] at h
  | cons t tail ih =>
    intro h
    have hall : (t :: tail).all goodToken = true := ((Bool.and_eq_true _ _).mp h).2
    have hmem := List.all_eq_true.mp hall
    have ht : goodToken t = true := hmem t (by simp)
    have htail : tail.all goodToken = true :=
      List.all_eq_true.mpr fun x hx => hmem x (List.mem_cons_of_mem _ hx)
    have hnd : ∀ c ∈ t.toList ++ ['\n'], isDelimC c = false := by
      intro c hc
      rcases List.mem_append.mp hc with hc | hc
      · exact goodToken_chars ht c hc
      · simp at hc; simp [hc, newline_not_delim]
    cases tail with
    | nil =>
      show (strtokTokensL (t.toList ++ ['\n'])).length = 1
      unfold strtokTokensL
      rw [← List.append_nil (t.toList ++ ['\n']), strtokAux_nondelim_run _ hnd [] []]
      have hrev : (t.toList ++ ['\n']).reverse ++ [] = '\n' :: t.toList.reverse := by simp
      rw [hrev]
      simp [strtokAux_nil]
    | cons u rest =>
      have hjoin : joinRow (t :: u :: rest) = t ++ ", " ++ joinRow (u :: rest) := rfl
      have hbuf : (joinRow (t :: u :: rest)).toList ++ ['\n'] =
          t.toList ++ (',' :: ' ' :: ((joinRow (u :: rest)).toList ++ ['\n'])) := by
        rw [hjoin]
        show ((t ++ ", " ++ joinRow (u :: rest)).data) ++ ['\n'] = _
        simp [String.toList, List.append_assoc]
      have hne : t.toList.reverse.isEmpty = false := by
        cases hc : t.toList with
        | nil => exact absurd hc (goodToken_ne_nil ht)
        | cons a as => simp [hc]
      have hrow : goodRow (u :: rest) = true := by
        simp only [goodRow, List.isEmpty_cons, Bool.not_false, Bool.true_and]
        simpa using htail
      unfold strtokTokensL
      rw [hbuf, strtokAux_nondelim_run t.toList (fun c hc => goodToken_chars ht c hc)]
      rw [List.append_nil, strtokAux_delim_cons ',' (by decide)]
      rw [hne]
      simp only [Bool.false_eq_true, if_false]
      rw [strtokAux_delim_cons ' ' (by decide)]
      simp only [List.isEmpty_nil, if_true]
      have hih := ih hrow
      unfold strtokTokensL at hih
      simp only [String.toList] at hih ⊢
      simp [hih]

/-! ## Trimmer lemmas -/

theorem trimTokenChars_idem (l : List Char) :
    trimTokenChars (trimTokenChars l) = trimTokenChars l := by
  induction l with
  | nil => rfl
  | cons c cs ih =>
    by_cases hc : isalnum c = true
    · simp [trimTokenChars, hc, ih]
    · simp [trimTokenChars, Bool.eq_false_iff.mpr hc, ih]

theorem trimTokenChars_eq_filter (l : List Char) :
    trimTokenChars l = l.filter isalnum := by
  induction l with
  | nil => rfl
  | cons c cs ih =>
    by_cases hc : isalnum c = true
    · simp [trimTokenChars, hc, ih, List.filter_cons]
    · simp [trimTokenChars, Bool.eq_false_iff.mpr hc, ih, List.filter_cons]

/-! ## Tokenizer vs `splitOnP` -/

theorem strtokAux_eq_splitOnP (l : List Char) :
    ∀ acc s ss, l.splitOnP isDelimC = s :: ss →
      strtokAux l acc = ((acc.reverse ++ s) :: ss).filter (fun x => !x.isEmpty) := by
  induction l with
  | nil =>
    intro acc s ss h
    rw [List.splitOnP_nil] at h
    cases h
    cases acc <;> simp [strtokAux]
  | cons c cs ih =>
    intro acc s ss h
    rw [List.splitOnP_cons] at h
    cases h' : cs.splitOnP isDelimC with
    | nil => exact absurd h' (List.splitOnP_ne_nil isDelimC cs)
    | cons s' ss' =>
      by_cases hc : isDelimC c
      · rw [if_pos hc] at h
        cases h
        have ih0 := ih [] s' ss' h'
        simp only [List.reverse_nil, List.nil_append] at ih0
        rw [h']
        cases acc with
        | nil =>
          rw [strtokAux_delim_cons c hc]
          simp [ih0, List.filter_cons]
        | cons a as =>
          rw [strtokAux_delim_cons c hc, ih0]
          simp [List.filter_cons]
      · rw [if_neg hc] at h
        rw [h', List.modifyHead_cons] at h
        injection h with h1 h2
        subst h1
        subst h2
        have ihc := ih (c :: acc) _ _ h'
        rw [strtokAux_cons, if_neg (by simp [hc]), ihc]
        simp [List.append_assoc]

/-! ## Claim theorems -/

/-- Claim C1: for every well-formed input file with `R` data rows and `C`
tokens in its first data line, `loadCsv` returns a table whose `rows` equals
`R` and whose `cols` equals `C`.  Well-formedness: every data row is a
nonempty list of nonempty tokens free of delimiter characters and newlines,
joined by `", "`, and every line fits the 1024-byte `fgets` buffer. -/
theorem loadCsv_dims (hdr : String) (first : List String) (rest : List (List String))
    (_hhdr : hdr.toList.all (fun c => !(c == '\n')) = true)
    (_hhdrlen : hdr.length ≤ 1022)
    (hfirst : goodRow first = true)
    (_hrest : ∀ row ∈ rest, goodRow row = true)
    (_hlen : ∀ row ∈ first :: rest, (joinRow row).length ≤ 1022) :
    (loadCsv (hdr :: (first :: rest).map joinRow)).rows = rest.length + 1 ∧
    (loadCsv (hdr :: (first :: rest).map joinRow)).cols = first.length := by
  constructor
  · show ((first :: rest).map joinRow).length = rest.length + 1
    simp
  · show (lineTokens (joinRow first)).length = first.length
    unfold lineTokens lineBuf
    rw [List.length_map]
    exact strtokTokensL_joinRow_length first hfirst

/-- Witness for C1 at a concrete well-formed file with two data rows of
three tokens each. -/
theorem loadCsv_dims_witness :
    (loadCsv ("a, b, c" :: ([["1", "2", "3"], ["4", "5", "6"]].map joinRow))).rows = 2 ∧
    (loadCsv ("a, b, c" :: ([["1", "2", "3"], ["4", "5", "6"]].map joinRow))).cols = 3 :=
  loadCsv_dims "a, b, c" ["1", "2", "3"] [["4", "5", "6"]]
    (by decide) (by decide) (by decide) (by decide) (by decide)

/-- Claim C2 (code bug): on the scenario file, `rows = 2`, `cols = 3` and
cells `[[1,2,3],[4,5,6]]` hold as claimed, and the header tokens trim to
`a`, `b`, `c` — but the label buffers are unterminated (their C-string reads
are garbage-dependent), so the header `strncat` builds is not guaranteed to
be `["a","b","c"]`: with an all-zero heap `params` ends as `abc` (the
claimed result), while another possible heap state yields `axbc`. -/
theorem loadCsv_scenario_header_indeterminate :
    (loadCsv ["a, b, c", "1, 2, 3", "4, 5, 6"]).rows = 2 ∧
    (loadCsv ["a, b, c", "1, 2, 3", "4, 5, 6"]).cols = 3 ∧
    cellsOf (loadCsv ["a, b, c", "1, 2, 3", "4, 5, 6"]) =
      [[some 1, some 2, some 3], [some 4, some 5, some 6]] ∧
    (loadCsv ["a, b, c", "1, 2, 3", "4, 5, 6"]).delim = ", " ∧
    (loadCsv ["a, b, c", "1, 2, 3", "4, 5, 6"]).headerLabelBufs =
      [[some 'a', none], [some 'b', none], [some 'c', none, none]] ∧
    isCString [some 'a', none] = false ∧
    validHeap 3 [] [] = true ∧
    paramsAfter [] [] ["a, b, c", "1, 2, 3", "4, 5, 6"] = ['a', 'b', 'c'] ∧
    validHeap 3 [] [['x']] = true ∧
    paramsAfter [] [['x']] ["a, b, c", "1, 2, 3", "4, 5, 6"] = ['a', 'x', 'b', 'c'] ∧
    (['a', 'x', 'b', 'c'] : List Char) ≠ ['a', 'b', 'c'] := by decide

/-- Claim C3 (code bug): on an unopenable path, `getDFsize` does return
`NULL`, but `loadCsv` checks neither its own `fopen` nor `createDataFrame`'s
input, and `createDataFrame` dereferences the `NULL` size array
(`dfSize[0]`), so the load ends in undefined behavior instead of surfacing an
`IOError`; no `Table` is produced, but not by a clean error return. -/
theorem loadCsv_nullDeref_on_open_failure :
    getDFsizeOpen none = none ∧
    createDataFrameOpen none = Except.error CCrash.nullDerefSize ∧
    loadCsvOpen none none = Except.error CCrash.nullDerefSize :=
  ⟨rfl, rfl, rfl⟩

/-- Counterexample to C4 as stated: on the line `a,b` (comma not followed by
a space), exact-substring splitting by `", "` yields one token, but the scan
counts two columns, because `strtok` splits at the delimiter's characters as
a set. -/
theorem strtok_not_substring_counterexample :
    (getDFsize ["h", "a,b"]).2 = 2 ∧
    lineTokens "a,b" = ["a", "b\n"] ∧
    splitSeq (", ".toList) (lineBuf "a,b") = [['a', ',', 'b', '\n']] ∧
    (splitSeq (", ".toList) (lineBuf "a,b")).length = 1 := by decide

/-- Claim C4 (amended): in both the dimension scan and the load, tokenization
splits each line at maximal runs of the delimiter's characters `','` and
`' '` treated as a character set (C `strtok` semantics, empty tokens
suppressed), not at exact occurrences of the two-character substring `", "`. -/
theorem lineTokens_charset :
    (∀ l : String, lineTokens l =
      (((lineBuf l).splitOnP isDelimC).filter (fun x => !x.isEmpty)).map
        (fun cs => (⟨cs⟩ : String))) ∧
    (∀ (hdr d : String) (rest : List String),
      (getDFsize (hdr :: d :: rest)).2 = (lineTokens d).length) ∧
    (∀ (r : Nat) (d : String),
      rowWrites r d = ((lineTokens d).enum).map fun p => (r, p.1, atof p.2)) := by
  refine ⟨fun l => ?_, fun hdr d rest => rfl, fun r d => rfl⟩
  cases h : (lineBuf l).splitOnP isDelimC with
  | nil => exact absurd h (List.splitOnP_ne_nil isDelimC (lineBuf l))
  | cons s ss =>
    unfold lineTokens strtokTokensL
    rw [strtokAux_eq_splitOnP _ [] s ss h]
    simp

/-- Claim C5 (code bug): `trimToken` writes `'\0'` only at index 0 *before*
the copy loop and never writes a terminator after it, so for any input with
at least one alphanumeric character the copied content overwrites the NUL and
the returned buffer is not a terminated C string (its tail is uninitialized).
The copied character content is exactly the alphanumeric characters in
order, and an all-non-alphanumeric input does yield the empty string. -/
theorem trimToken_missing_terminator :
    trimTokenBuf "abc".toList = [some 'a', some 'b', some 'c', none] ∧
    isCString (trimTokenBuf "abc".toList) = false ∧
    trimToken "abc" = "abc" ∧
    trimTokenBuf "!!".toList = [some (Char.ofNat 0), none, none] ∧
    isCString (trimTokenBuf "!!".toList) = true ∧
    trimToken "!!" = "" := by decide

/-- Claim C6 (code bug): a file of exactly one header line gives `rows = 0`
and `cols = 0` as claimed, and the header allocation is the single
initialized NUL byte — but the header is not empty: the loader still runs
the header loop over the three labels, and under *every* possible heap state
the resulting `params` string contains at least the three trimmed characters
(and is nonempty), `strncat`ed into the 1-byte allocation — a heap
overflow. -/
theorem loadCsv_headerOnly :
    (loadCsv ["a, b, c"]).rows = 0 ∧ (loadCsv ["a, b, c"]).cols = 0 ∧
    (loadCsv ["a, b, c"]).paramsBuf = [some (Char.ofNat 0)] ∧
    (loadCsv ["a, b, c"]).headerLabelBufs =
      [[some 'a', none], [some 'b', none], [some 'c', none, none]] ∧
    (loadCsv ["a, b, c"]).dataWrites = [] ∧
    (∀ labelGarbage : List (List Char),
      3 ≤ (paramsAfter [] labelGarbage ["a, b, c"]).length) ∧
    (∀ labelGarbage : List (List Char),
      paramsAfter [] labelGarbage ["a, b, c"] ≠ []) := by
  have h : ∀ labelGarbage : List (List Char),
      paramsAfter [] labelGarbage ["a, b, c"] =
        'a' :: (labelGarbage.getD 0 [] ++
          ('b' :: (labelGarbage.getD 1 [] ++
            ('c' :: (labelGarbage.getD 2 [] ++ []))))) := fun _ => rfl
  refine ⟨by decide, by decide, by decide, by decide, by decide, ?_, ?_⟩
  · intro lg
    rw [h lg]
    simp only [List.length_cons, List.length_append]
    omega
  · intro lg
    rw [h lg]
    simp

/-- Claim C7 (code bug): the data loop stores every token of a line at
column indices `0, 1, 2, …` with no bound check against `cols`, so a longer
later row is not truncated: on a 2-column table the third token of row 1 is
stored at column index 2 — outside the allocated `rows × cols` matrix. -/
theorem loadCsv_oob_write :
    (loadCsv ["h", "1, 2", "3, 4, 5"]).rows = 2 ∧
    (loadCsv ["h", "1, 2", "3, 4, 5"]).cols = 2 ∧
    (loadCsv ["h", "1, 2", "3, 4, 5"]).dataWrites =
      [(0, 0, 1), (0, 1, 2), (1, 0, 3), (1, 1, 4), (1, 2, 5)] ∧
    ¬(2 < (loadCsv ["h", "1, 2", "3, 4, 5"]).cols) := by decide

/-- Counterexample to C8 as stated: `12abc` is not a valid floating-point
literal, yet its cell is stored as `12.0`, not `0.0` — `atof` converts the
longest parseable numeric prefix. -/
theorem atof_numeric_prefix_counterexample :
    isFloatLiteral "12abc" = false ∧
    (loadCsv ["a, b", "12abc, 7"]).dataWrites = [(0, 0, 12), (0, 1, 7)] ∧
    (12 : ℚ) ≠ 0 := by decide

/-- Claim C8 (amended): the load never fails on a data token — every stored
cell value is `atof` of the corresponding `strtok` token of its data line,
and when `strtod` can perform no conversion (no parseable numeric prefix)
the stored value is `0.0`.  (A token with a parseable numeric *prefix*, such
as `12abc`, stores the prefix's value, not `0.0`.) -/
theorem loadCsv_cell_atof (lines : List String) (i r c : Nat) (v : ℚ)
    (h : ((loadCsv lines).dataWrites)[i]? = some (r, c, v)) :
    ∃ l t, lines[r + 1]? = some l ∧ (lineTokens l)[c]? = some t ∧ v = atof t ∧
      (strtod t.toList = none → v = 0) := by
  cases lines with
  | nil => exact absurd h (by simp [loadCsv, createDataFrame])
  | cons hdr dls =>
    have hmem : (r, c, v) ∈ dataWritesOf dls := List.getElem?_mem h
    rw [dataWritesOf, List.mem_flatMap] at hmem
    obtain ⟨⟨ri, li⟩, hpe, hw⟩ := hmem
    rw [rowWrites, List.mem_map] at hw
    obtain ⟨⟨ci, ti⟩, hqe, heq⟩ := hw
    have h1 : ri = r := congrArg Prod.fst heq
    have h2 : ci = c := congrArg (fun x => x.2.1) heq
    have h3 : atof ti = v := congrArg (fun x => x.2.2) heq
    subst h1; subst h2; subst h3
    refine ⟨li, ti, ?_, ?_, rfl, ?_⟩
    · simpa using List.mk_mem_enum_iff_getElem?.mp hpe
    · simpa using List.mk_mem_enum_iff_getElem?.mp hqe
    · intro hnone
      unfold atof
      rw [hnone]

/-- Witness for C8 at the file `a` / `xy`: the single stored cell is `0`
because `xy` has no parseable numeric prefix. -/
theorem loadCsv_cell_atof_witness :
    ∃ l t, (["a", "xy"] : List String)[0 + 1]? = some l ∧
      (lineTokens l)[0]? = some t ∧ (0 : ℚ) = atof t ∧
      (strtod t.toList = none → (0 : ℚ) = 0) :=
  loadCsv_cell_atof ["a", "xy"] 0 0 0 0 (by decide)

/-- Claim C9 (code bug): the intended sanitization map is idempotent (first
conjunct, over all inputs) — but the program's first `trimToken` call
returns an unterminated buffer, so the second call's input depends on
uninitialized bytes: both `a` and `ab` are possible C-string reads of the
buffer `trimToken("a!")` returns, and re-trimming the read `ab` yields
`ab ≠ a`.  Idempotence is therefore not a guarantee of the program, only of
the sanitization map. -/
theorem trimToken_idem_content_only :
    (∀ l : List Char, trimTokenChars (trimTokenChars l) = trimTokenChars l) ∧
    trimTokenBuf "a!".toList = [some 'a', none, none] ∧
    isCString (trimTokenBuf "a!".toList) = false ∧
    canReadCString (trimTokenBuf "a!".toList) ['a'] = true ∧
    canReadCString (trimTokenBuf "a!".toList) ['a', 'b'] = true ∧
    trimTokenChars ['a'] = ['a'] ∧
    trimTokenChars ['a', 'b'] = ['a', 'b'] ∧
    (['a', 'b'] : List Char) ≠ ['a'] :=
  ⟨trimTokenChars_idem, by decide, by decide, by decide, by decide,
    by decide, by decide, by decide⟩

/-- Counterexample to C10 as stated: over the same file content, two
possible heap states (both valid) give different header-storage contents, so
the loaded table — header included — is not determined solely by the file
content, and two runs over identical content need not return equal tables. -/
theorem loadCsv_header_garbage_counterexample :
    validHeap 2 [] [] = true ∧
    paramsAfter [] [] ["h, i", "1, 2"] = ['h', 'i'] ∧
    validHeap 2 [] [['z']] = true ∧
    paramsAfter [] [['z']] ["h, i", "1, 2"] = ['h', 'z', 'i'] ∧
    (['h', 'i'] : List Char) ≠ ['h', 'z', 'i'] := by decide

/-- Claim C10 (amended): the `FILE *` argument passed to `loadCsv` (and on to
`createDataFrame`/`getDFsize`) is ignored — each reopens `CSV_PATH` itself —
and the global `csvPtr` is never read or written: the determinate state of
the loaded table (dimensions, tokenization, header allocation and label
buffers, cell-write trace) is equal across two runs with arbitrary different
handle states over the same content, and `csvPtr` is left unchanged.  The
final header-storage *bytes*, by contrast, depend on uninitialized heap
memory (see the counterexample), so they are not part of this guarantee. -/
theorem loadCsv_handles_ignored (a a' g g' f : Option (List String)) :
    (loadCsvFull a g f).1 = (loadCsvFull a' g' f).1 ∧
    (loadCsvFull a g f).2 = g :=
  ⟨rfl, rfl⟩

end OpenCsv
